import Mathlib

/-!
Verification development for the hybrid RDF query-processing engine
(`query_processor.py`).  Python strings are modelled as `List Char`
(ASCII fragment: the Unicode-aware regex classes `\w` and `\s` are
modelled by their ASCII parts, which covers every string handled by the
claims).  Python floats appear only as scores in multiples of 0.5 and as
the positional threshold `len(query) * 0.3`; both are modelled exactly
over integers (scores in half-point units, the threshold comparison
`find < len*0.3` as `10*find < 3*len`, which agrees with IEEE-754
evaluation because the relative rounding error of `len*0.3` is below
half an ulp of the exact rational).
-/

set_option maxRecDepth 100000

namespace RdfQP

/-- Characters that are awkward to write as Lean literals. -/
def bsChar : Char := Char.ofNat 92

/-- Double-quote character. -/
def dqChar : Char := Char.ofNat 34

/-- Single-quote (apostrophe) character. -/
def sqChar : Char := Char.ofNat 39

/-- Newline character. -/
def nlChar : Char := Char.ofNat 10

/-- Carriage-return character. -/
def crChar : Char := Char.ofNat 13

/-- Tab character. -/
def tbChar : Char := Char.ofNat 9

/-- ASCII model of Python's regex class `\s`:
space, tab, newline, carriage return, vertical tab, form feed. -/
def isSpaceChar (c : Char) : Bool :=
  c = ' ' || c = tbChar || c = nlChar || c = crChar ||
  c = Char.ofNat 11 || c = Char.ofNat 12

/-- ASCII model of Python's regex class `\w`: alphanumerics and `_`. -/
def isWordChar (c : Char) : Bool :=
  c.isAlphanum || c = '_'

/-- Characters kept by the final strip of `_escape_sparql_string`,
i.e. the regex class `[\w\s\-_.]` of `re.sub(r'[^\w\s\-_.]', '', text)`. -/
def isSafeChar (c : Char) : Bool :=
  isWordChar c || isSpaceChar c || c = '-' || c = '_' || c = '.'

/-- Model of Python `str.replace(t, r)` for a single-character target:
every occurrence of `t` is replaced by the string `r` in one pass. -/
def replaceChar (t : Char) (r : List Char) : List Char → List Char
  | [] => []
  | c :: cs => (if c = t then r else [c]) ++ replaceChar t r cs

/-- Model of `_escape_sparql_string` (src/query_processor.py lines 319-336):
empty-string guard, six sequential single-character `str.replace` passes
(backslash first, then double quote, single quote, newline, carriage
return, tab), then `re.sub(r'[^\w\s\-_.]', '', text)`, which keeps only
the characters of `isSafeChar`. -/
def _escape_sparql_string (text : List Char) : List Char :=
  if text = [] then []
  else
    let t1 := replaceChar bsChar [bsChar, bsChar] text
    let t2 := replaceChar dqChar [bsChar, dqChar] t1
    let t3 := replaceChar sqChar [bsChar, sqChar] t2
    let t4 := replaceChar nlChar [bsChar, 'n'] t3
    let t5 := replaceChar crChar [bsChar, 'r'] t4
    let t6 := replaceChar tbChar [bsChar, 't'] t5
    t6.filter isSafeChar

/-- Shorthand for string literals as character lists. -/
def txt (s : String) : List Char := s.data

/-- Model of Python `str.lower()` (ASCII). -/
def toLowerList (l : List Char) : List Char := l.map Char.toLower

/-- Model of Python `str.strip()`: drop whitespace at both ends. -/
def stripWs (l : List Char) : List Char :=
  ((l.dropWhile isSpaceChar).reverse.dropWhile isSpaceChar).reverse

/-- Model of the Python substring test `needle in haystack`. -/
def substrB (n : List Char) : List Char → Bool
  | [] => n.isEmpty
  | c :: cs => n.isPrefixOf (c :: cs) || substrB n cs

/-- Abstract syntax of the regex fragment used by the classifier
patterns: literals, `(.+)` (one or more characters, `.` not matching a
newline), concatenation, alternation `(x|y)` and option `(...)?`. -/
inductive Re where
  | eps : Re
  | lit : List Char → Re
  | anyplus : Re
  | cat : Re → Re → Re
  | alt : Re → Re → Re
  | opt : Re → Re
deriving Repr

/-- All ways `(.+)` can consume a non-empty prefix of `s`: the suffixes
after dropping 1..m characters, where m is the longest newline-free
prefix (Python `.` does not match a newline). -/
def nonNlDrops (s : List Char) : List (List Char) :=
  (List.range (s.takeWhile (fun c => !(c == nlChar))).length).map
    (fun k => s.drop (k + 1))

/-- Backtracking regex matcher: all suffixes of `s` remaining after the
pattern has matched some prefix of `s`. -/
def remainders : Re → List Char → List (List Char)
  | .eps, s => [s]
  | .lit w, s => if w.isPrefixOf s then [s.drop w.length] else []
  | .anyplus, s => nonNlDrops s
  | .cat a b, s => (remainders a s).flatMap (fun t => remainders b t)
  | .alt a b, s => remainders a s ++ remainders b s
  | .opt a, s => s :: remainders a s

/-- Does the pattern match starting exactly at the head of `s`? -/
def reMatchHere (r : Re) (s : List Char) : Bool :=
  !(remainders r s).isEmpty

/-- Model of Python `re.search(pattern, s)` truthiness: the pattern
matches starting at some position of `s`. -/
def reSearch (r : Re) : List Char → Bool
  | [] => reMatchHere r []
  | c :: cs => reMatchHere r (c :: cs) || reSearch r cs

/-- Literal regex piece. -/
def rlit (s : String) : Re := Re.lit s.data

/-- Concatenation of a list of regex pieces. -/
def rcat (l : List Re) : Re := l.foldr Re.cat Re.eps

/-- Transcription of `self.query_patterns` (src/query_processor.py lines
32-98), in dict insertion order; each Python regex is transcribed into
the `Re` fragment. -/
def query_patterns : List (List Char × List Re) := [
  (txt "definition", [
    rcat [rlit "what is ", Re.opt (Re.alt (rlit "a ") (rlit "an ")), Re.anyplus],
    rcat [rlit "define ", Re.anyplus],
    rcat [rlit "explain ", Re.anyplus],
    rcat [rlit "describe ", Re.anyplus],
    rcat [rlit "tell me about ", Re.anyplus],
    rcat [rlit "give me information about ", Re.anyplus],
    rcat [Re.anyplus, rlit " definition"]]),
  (txt "relationship", [
    rcat [rlit "how ", Re.opt (Re.alt (rlit "is ") (rlit "are ")), Re.anyplus,
          rlit " related to ", Re.anyplus],
    rcat [rlit "what ", Re.anyplus, rlit " connect", Re.anyplus, rlit " to ", Re.anyplus],
    rcat [rlit "relationship between ", Re.anyplus, rlit " and ", Re.anyplus],
    rcat [Re.anyplus, rlit " related to ", Re.anyplus],
    rcat [rlit "how do ", Re.anyplus, rlit " and ", Re.anyplus, rlit " interact"],
    rcat [rlit "connection between ", Re.anyplus, rlit " and ", Re.anyplus]]),
  (txt "property", [
    rcat [rlit "what ", Re.anyplus, rlit " properties ", Re.anyplus, rlit " ",
          Re.alt (rlit "have") (rlit "has")],
    rcat [rlit "what attributes ", Re.anyplus, rlit " ",
          Re.alt (rlit "have") (rlit "has")],
    rcat [rlit "properties of ", Re.anyplus],
    rcat [rlit "attributes of ", Re.anyplus],
    rcat [rlit "characteristics of ", Re.anyplus],
    rcat [rlit "what can ", Re.anyplus, rlit " do"],
    rcat [rlit "capabilities of ", Re.anyplus]]),
  (txt "listing", [
    rcat [rlit "list ", Re.anyplus],
    rcat [rlit "show me ", Re.anyplus],
    rcat [rlit "find all ", Re.anyplus],
    rcat [rlit "what are ", Re.anyplus],
    rcat [rlit "give me all ", Re.anyplus],
    rcat [rlit "enumerate ", Re.anyplus],
    rcat [rlit "all ", Re.anyplus, rlit " in ", Re.anyplus]]),
  (txt "comparison", [
    rcat [rlit "difference between ", Re.anyplus, rlit " and ", Re.anyplus],
    rcat [rlit "compare ", Re.anyplus, rlit " ",
          Re.alt (rlit "and") (rlit "with"), rlit " ", Re.anyplus],
    rcat [Re.anyplus, rlit " vs ", Re.anyplus],
    rcat [Re.anyplus, rlit " versus ", Re.anyplus],
    rcat [rlit "how ", Re.anyplus, rlit " different from ", Re.anyplus],
    rcat [rlit "similarities between ", Re.anyplus, rlit " and ", Re.anyplus]]),
  (txt "hierarchical", [
    rcat [rlit "what are the subclasses of ", Re.anyplus],
    rcat [rlit "what are the superclasses of ", Re.anyplus],
    rcat [Re.anyplus, rlit " hierarchy"],
    rcat [rlit "children of ", Re.anyplus],
    rcat [rlit "parents of ", Re.anyplus],
    rcat [rlit "what inherits from ", Re.anyplus],
    rcat [rlit "what does ", Re.anyplus, rlit " inherit from"]]),
  (txt "existence", [
    rcat [rlit "does ", Re.anyplus, rlit " exist"],
    rcat [rlit "is there ", Re.anyplus],
    rcat [rlit "are there any ", Re.anyplus],
    rcat [rlit "do we have ", Re.anyplus],
    rcat [rlit "can you find ", Re.anyplus]]),
  (txt "count", [
    rcat [rlit "how many ", Re.anyplus],
    rcat [rlit "count ", Re.anyplus],
    rcat [rlit "number of ", Re.anyplus],
    rcat [rlit "total ", Re.anyplus]])]

/-- Transcription of `self.intent_keywords` (src/query_processor.py
lines 101-110). -/
def intent_keywords : List (List Char × List (List Char)) := [
  (txt "definition",
    [txt "what", txt "define", txt "explain", txt "describe",
     txt "meaning", txt "definition"]),
  (txt "relationship",
    [txt "related", txt "relationship", txt "connection",
     txt "interact", txt "connect"]),
  (txt "property",
    [txt "property", txt "properties", txt "attribute",
     txt "attributes", txt "characteristic"]),
  (txt "listing",
    [txt "list", txt "show", txt "all", txt "find",
     txt "enumerate", txt "give me"]),
  (txt "comparison",
    [txt "difference", txt "compare", txt "vs", txt "versus",
     txt "different", txt "similar"]),
  (txt "hierarchical",
    [txt "subclass", txt "superclass", txt "hierarchy",
     txt "inherit", txt "parent", txt "child"]),
  (txt "existence",
    [txt "exist", txt "there", txt "any", txt "have", txt "find"]),
  (txt "count",
    [txt "many", txt "count", txt "number", txt "total", txt "how much"])]

/-- Result of `_classify_query_enhanced`.  All scores are in half-point
units (a regex pattern match contributes 1 in the source, here 2; a
keyword hit contributes 0.5 in the source, here 1), so the Python floats
— all exact multiples of 0.5 — are represented exactly by naturals.
`confidence` is the top score in the same units. -/
structure Classification where
  primary_intent : List Char
  secondary_intent : Option (List Char)
  confidence : Nat
  all_scores : List (List Char × Nat)
deriving DecidableEq, Repr

/-- Stable insertion into a descending-by-score list: an element is
placed after every strictly greater element and before equal ones that
occur later, which is exactly the order Python's stable `sorted` with
`reverse=True` produces. -/
def insertDesc {α : Type} (x : α × Nat) : List (α × Nat) → List (α × Nat)
  | [] => [x]
  | y :: ys => if x.2 < y.2 then y :: insertDesc x ys else x :: y :: ys

/-- Stable descending sort by score (Python
`sorted(items, key=lambda x: x[1], reverse=True)`). -/
def sortDesc {α : Type} : List (α × Nat) → List (α × Nat)
  | [] => []
  | x :: xs => insertDesc x (sortDesc xs)

/-- Per-intent half-point score of a lower-cased, stripped query:
each matching pattern contributes 1 (here 2 half-points) and each
keyword contained in the query 0.5 (here 1 half-point). -/
def intentScores (ql : List Char) : List (List Char × Nat) :=
  query_patterns.map (fun p =>
    (p.1, 2 * (p.2.countP (fun r => reSearch r ql))
          + ((intent_keywords.lookup p.1).getD []).countP (fun k => substrB k ql)))

/-- Selection step of `_classify_query_enhanced`: sort the score map
descending (stable); primary intent is the top entry if its score is
positive else `general`; secondary intent is the next entry if its
score is positive; confidence is the top score; `all_scores` is the
sorted score map (Python `dict(sorted_intents)` preserves that order). -/
def classifyFromScores (intent_scores : List (List Char × Nat)) : Classification :=
  match sortDesc intent_scores with
  | [] => ⟨txt "general", none, 0, []⟩
  | top :: rest =>
    ⟨if 0 < top.2 then top.1 else txt "general",
     (match rest with
      | [] => none
      | s :: _ => if 0 < s.2 then some s.1 else none),
     top.2, top :: rest⟩

/-- Model of `_classify_query_enhanced` (src/query_processor.py lines
533-564): lower-case and strip the query, score each intent by patterns
and keywords, then select primary/secondary intents from the sorted
score map. -/
def _classify_query_enhanced (query : List Char) : Classification :=
  classifyFromScores (intentScores (stripWs (toLowerList query)))

/-- Descending-by-score order. -/
def SortedDesc {α : Type} (l : List (α × Nat)) : Prop :=
  l.Pairwise (fun x y => y.2 ≤ x.2)

/-- Model of `re.findall(r'\b[a-zA-Z]+\b', s)`: maximal alphabetic runs
whose neighbouring characters (if any) are not word characters — a run
bordered by a digit or underscore fails the `\b` boundary and is
dropped whole.  `prevIsWord` records whether the character before the
current position is a word character.  The fuel argument (instantiated
with the list length, an upper bound on the scan steps because every
step consumes at least one character) keeps the recursion structural so
that the definition evaluates by kernel reduction. -/
def wordsOfAuxF (prevIsWord : Bool) : Nat → List Char → List (List Char)
  | _, [] => []
  | 0, _ :: _ => []
  | f + 1, c :: cs =>
    if c.isAlpha then
      let run := (c :: cs).takeWhile Char.isAlpha
      let rest := (c :: cs).dropWhile Char.isAlpha
      let keep := !prevIsWord &&
        (match rest with | [] => true | r :: _ => !(isWordChar r))
      (if keep then [run] else []) ++ wordsOfAuxF true f rest
    else wordsOfAuxF (isWordChar c) f cs

/-- Word tokens of a string, as the source's
`re.findall(r'\b[a-zA-Z]+\b', query.lower())` sees them. -/
def wordsOf (l : List Char) : List (List Char) := wordsOfAuxF false l.length l

/-- Transcription of the stop-word set of
`_extract_key_concepts_enhanced` (src/query_processor.py lines 569-574). -/
def stop_words : List (List Char) :=
  [txt "what", txt "is", txt "are", txt "the", txt "a", txt "an", txt "and",
   txt "or", txt "but", txt "in", txt "on", txt "at", txt "to", txt "for",
   txt "of", txt "with", txt "by", txt "how", txt "why", txt "when",
   txt "where", txt "who", txt "which", txt "that", txt "this",
   txt "tell", txt "me", txt "about", txt "show", txt "find", txt "list",
   txt "describe", txt "explain", txt "define",
   txt "do", txt "does", txt "did", txt "can", txt "could", txt "would",
   txt "should", txt "will", txt "have", txt "has", txt "had"]

/-- Model of the bigram/trigram loop of `_extract_key_concepts_enhanced`
(lines 581-590): for every index i with both tokens longer than 3
characters emit the bigram, and when a third long-enough token follows
also the trigram, in that order. -/
def multiWords : List (List Char) → List (List Char)
  | a :: b :: rest =>
    (if 3 < a.length && 3 < b.length then
      (a ++ [' '] ++ b) ::
        (match rest with
         | c :: _ => if 3 < c.length then [a ++ [' '] ++ b ++ [' '] ++ c] else []
         | [] => [])
     else []) ++ multiWords (b :: rest)
  | _ => []

/-- Model of `re.findall` for the quoted-phrase patterns
`\"([^\"]+)\"` and `'([^']+)'`: scan left to right; at a quote
character, a non-empty body up to the next quote forms a match and
scanning resumes after the closing quote; a quote without a non-empty
terminated body yields no match there. -/
def findQuotedF (q : Char) : Nat → List Char → List (List Char)
  | _, [] => []
  | 0, _ :: _ => []
  | f + 1, c :: cs =>
    if c = q then
      let body := cs.takeWhile (fun d => !(d == q))
      match body with
      | [] => findQuotedF q f cs
      | _ :: _ =>
        match cs.drop body.length with
        | [] => []
        | _ :: rest => body :: findQuotedF q f rest
    else findQuotedF q f cs

/-- Quoted-phrase extraction with the fuel instantiated (the scan
consumes at least one character per step, so the list length bounds the
number of steps). -/
def findQuoted (q : Char) (l : List Char) : List (List Char) :=
  findQuotedF q l.length l

/-- Fuel-driven model of Python `str.count`: number of non-overlapping
occurrences, scanning left to right and jumping over each match.  The
fuel (instantiated with the haystack length) is an upper bound on the
scan steps; callers never pass an empty needle. -/
def countSubF (n : List Char) : Nat → List Char → Nat
  | _, [] => 0
  | 0, _ => 0
  | f + 1, c :: cs =>
    if n.isPrefixOf (c :: cs) then 1 + countSubF n f ((c :: cs).drop n.length)
    else countSubF n f cs

/-- Python `haystack.count(needle)` for a non-empty needle. -/
def countSub (n h : List Char) : Nat := countSubF n h.length h

/-- First index of `n` in `h`, or `none` (Python `str.find` = -1). -/
def findSub (n : List Char) : List Char → Option Nat
  | [] => if n.isEmpty then some 0 else none
  | c :: cs =>
    if n.isPrefixOf (c :: cs) then some 0
    else (findSub n cs).map (· + 1)

/-- Python `str.find` as an integer (-1 when absent). -/
def findSubInt (n h : List Char) : Int :=
  match findSub n h with
  | some i => (i : Int)
  | none => -1

/-- Order-preserving removal of duplicates with a seen-accumulator. -/
def dedupAux {α : Type} [DecidableEq α] : List α → List α → List α
  | [], _ => []
  | a :: l, seen =>
    if a ∈ seen then dedupAux l seen else a :: dedupAux l (a :: seen)

/-- Model of Python `list(set(xs))`.  The set iteration order is
implementation-defined in Python (string hashing is randomized), so it
is modelled as first-occurrence order; no theorem below depends on the
order, only on membership, uniqueness and the score-sortedness applied
afterwards. -/
def dedupFirst {α : Type} [DecidableEq α] (l : List α) : List α := dedupAux l []

/-- Score of a concept (lines 599-605): the count of case-insensitive
occurrences in the query, plus 1 when the first occurrence starts
within the first 30% of the query's character length.  The float
comparison `find < len(query) * 0.3` is modelled exactly as
`10*find < 3*len` (see the header note); Python's `find` returns -1
when absent, which also gains the bonus. -/
def conceptScore (query : List Char) (c : List Char) : Nat :=
  countSub (toLowerList c) (toLowerList query) +
    (if 10 * findSubInt (toLowerList c) (toLowerList query) <
        3 * (query.length : Int) then 1 else 0)

/-- Scored, sorted concept list of `_extract_key_concepts_enhanced`
(src/query_processor.py lines 566-609): tokenize the lower-cased query,
drop stop words and tokens of length ≤ 2, add bigrams/trigrams of long
tokens and quoted phrases from the original query, deduplicate
(`list(set(...))`), score, and sort descending by score (stable). -/
def extractScored (query : List Char) : List (List Char × Nat) :=
  let words := wordsOf (toLowerList query)
  let concepts := words.filter (fun w => !(stop_words.contains w) && 2 < w.length)
  let multi_words := multiWords concepts
  let quoted_phrases := findQuoted dqChar query ++ findQuoted sqChar query
  let all_concepts := dedupFirst (concepts ++ multi_words ++ quoted_phrases)
  sortDesc (all_concepts.map (fun c => (c, conceptScore query c)))

/-- Model of `_extract_key_concepts_enhanced`: the sorted concepts with
the scores projected away. -/
def _extract_key_concepts_enhanced (query : List Char) : List (List Char) :=
  (extractScored query).map Prod.fst

/-- A run of `n` spaces (the Python triple-quoted templates carry the
source indentation). -/
def sp (n : Nat) : List Char := List.replicate n ' '

/-- Rendered text of a triple-quoted f-string template: a leading
newline, each line followed by a newline, and the 24-space indentation
of the closing quotes. -/
def qlines (ls : List (List Char)) : List Char :=
  txt "\n" ++ ls.flatMap (fun l => l ++ txt "\n") ++ sp 24

/-- One structured query spec of `_generate_targeted_sparql_queries`:
the dict keys `type` (here `qtype`: `type` is reserved), `query` and
`description`. -/
structure QuerySpec where
  qtype : List Char
  query : List Char
  description : List Char
deriving DecidableEq, Repr

/-- The `list_classes` template (src/query_processor.py lines 720-727).
The interpolated `concept` is NOT passed through
`_escape_sparql_string` in this (effective) definition. -/
def listClassesQuery (c : List Char) : List Char :=
  qlines [
    sp 24 ++ txt "SELECT ?class ?label WHERE \x7b",
    sp 28 ++ txt "?class rdf:type owl:Class .",
    sp 28 ++ txt "OPTIONAL \x7b ?class rdfs:label ?label \x7d",
    sp 28 ++ txt "FILTER(CONTAINS(LCASE(STR(?class)), LCASE(\"" ++ c ++ txt "\")) || ",
    sp 35 ++ txt "CONTAINS(LCASE(STR(?label)), LCASE(\"" ++ c ++ txt "\")))",
    sp 24 ++ txt "\x7d LIMIT 20"]

/-- The `list_properties` template (lines 734-747). -/
def listPropertiesQuery (c : List Char) : List Char :=
  qlines [
    sp 24 ++ txt "SELECT ?property ?label ?type WHERE \x7b",
    sp 28 ++ txt "\x7b",
    sp 32 ++ txt "?property rdf:type owl:ObjectProperty .",
    sp 32 ++ txt "BIND(\"ObjectProperty\" AS ?type)",
    sp 28 ++ txt "\x7d UNION \x7b",
    sp 32 ++ txt "?property rdf:type owl:DatatypeProperty .",
    sp 32 ++ txt "BIND(\"DatatypeProperty\" AS ?type)",
    sp 28 ++ txt "\x7d",
    sp 28 ++ txt "OPTIONAL \x7b ?property rdfs:label ?label \x7d",
    sp 28 ++ txt "FILTER(CONTAINS(LCASE(STR(?property)), LCASE(\"" ++ c ++ txt "\")) || ",
    sp 35 ++ txt "CONTAINS(LCASE(STR(?label)), LCASE(\"" ++ c ++ txt "\")))",
    sp 24 ++ txt "\x7d LIMIT 15"]

/-- The `subclasses` template (lines 756-763). -/
def subclassesQuery (c : List Char) : List Char :=
  qlines [
    sp 24 ++ txt "SELECT ?subclass ?label WHERE \x7b",
    sp 28 ++ txt "?class rdf:type owl:Class .",
    sp 28 ++ txt "?subclass rdfs:subClassOf ?class .",
    sp 28 ++ txt "OPTIONAL \x7b ?subclass rdfs:label ?label \x7d",
    sp 28 ++ txt "FILTER(CONTAINS(LCASE(STR(?class)), LCASE(\"" ++ c ++ txt "\")) || ",
    sp 35 ++ txt "CONTAINS(LCASE(STR(?label)), LCASE(\"" ++ c ++ txt "\")))",
    sp 24 ++ txt "\x7d LIMIT 15"]

/-- The `superclasses` template (lines 771-778). -/
def superclassesQuery (c : List Char) : List Char :=
  qlines [
    sp 24 ++ txt "SELECT ?superclass ?label WHERE \x7b",
    sp 28 ++ txt "?class rdf:type owl:Class .",
    sp 28 ++ txt "?class rdfs:subClassOf ?superclass .",
    sp 28 ++ txt "OPTIONAL \x7b ?superclass rdfs:label ?label \x7d",
    sp 28 ++ txt "FILTER(CONTAINS(LCASE(STR(?class)), LCASE(\"" ++ c ++ txt "\")) || ",
    sp 35 ++ txt "CONTAINS(LCASE(STR(?label)), LCASE(\"" ++ c ++ txt "\")))",
    sp 24 ++ txt "\x7d LIMIT 15"]

/-- The `relationships` template (lines 789-799). -/
def relationshipsQuery (c1 c2 : List Char) : List Char :=
  qlines [
    sp 24 ++ txt "SELECT ?subject ?predicate ?object WHERE \x7b",
    sp 28 ++ txt "?subject ?predicate ?object .",
    sp 28 ++ txt "FILTER(",
    sp 32 ++ txt "(CONTAINS(LCASE(STR(?subject)), LCASE(\"" ++ c1 ++ txt "\")) && ",
    sp 33 ++ txt "CONTAINS(LCASE(STR(?object)), LCASE(\"" ++ c2 ++ txt "\"))) ||",
    sp 32 ++ txt "(CONTAINS(LCASE(STR(?subject)), LCASE(\"" ++ c2 ++ txt "\")) && ",
    sp 33 ++ txt "CONTAINS(LCASE(STR(?object)), LCASE(\"" ++ c1 ++ txt "\")))",
    sp 28 ++ txt ")",
    sp 24 ++ txt "\x7d LIMIT 20"]

/-- The `count_classes` template (lines 808-815). -/
def countClassesQuery (c : List Char) : List Char :=
  qlines [
    sp 24 ++ txt "SELECT (COUNT(?class) AS ?count) WHERE \x7b",
    sp 28 ++ txt "?class rdf:type owl:Class .",
    sp 28 ++ txt "OPTIONAL \x7b ?class rdfs:label ?label \x7d",
    sp 28 ++ txt "FILTER(CONTAINS(LCASE(STR(?class)), LCASE(\"" ++ c ++ txt "\")) || ",
    sp 35 ++ txt "CONTAINS(LCASE(STR(?label)), LCASE(\"" ++ c ++ txt "\")))",
    sp 24 ++ txt "\x7d"]

/-- Model of the EFFECTIVE `_generate_targeted_sparql_queries`
(src/query_processor.py lines 705-823, the later of the two definitions
of that name, which is the one bound on the class and called by
`process_query`): per-intent templates with the raw (unescaped) concept
strings interpolated.  The `query` argument is accepted and unused, as
in the source; the source's `try/except` cannot fire here because the
construction is total. -/
def _generate_targeted_sparql_queries (_query : List Char)
    (classification : Classification) (concepts : List (List Char)) :
    List QuerySpec :=
  let primary_intent := classification.primary_intent
  if primary_intent = txt "listing" then
    (concepts.take 3).flatMap (fun c =>
      [⟨txt "list_classes", listClassesQuery c,
        txt "Classes related to \"" ++ c ++ txt "\""⟩,
       ⟨txt "list_properties", listPropertiesQuery c,
        txt "Properties related to \"" ++ c ++ txt "\""⟩])
  else if primary_intent = txt "hierarchical" then
    (concepts.take 2).flatMap (fun c =>
      [⟨txt "subclasses", subclassesQuery c,
        txt "Subclasses of classes related to \"" ++ c ++ txt "\""⟩,
       ⟨txt "superclasses", superclassesQuery c,
        txt "Superclasses of classes related to \"" ++ c ++ txt "\""⟩])
  else if primary_intent = txt "relationship" then
    match concepts with
    | c1 :: c2 :: _ =>
      [⟨txt "relationships", relationshipsQuery c1 c2,
        txt "Relationships between \"" ++ c1 ++ txt "\" and \"" ++ c2 ++ txt "\""⟩]
    | _ => []
  else if primary_intent = txt "count" then
    (concepts.take 2).map (fun c =>
      ⟨txt "count_classes", countClassesQuery c,
       txt "Count of classes related to \"" ++ c ++ txt "\""⟩)
  else []

/-- Whitespace-run collapse of `_preprocess_query`
(`re.sub(r'\s+', ' ', query.strip())`), fuel-driven (fuel =
list length bounds the steps). -/
def collapseWsF : Nat → List Char → List Char
  | _, [] => []
  | 0, l => l
  | f + 1, c :: cs =>
    if isSpaceChar c then ' ' :: collapseWsF f (cs.dropWhile isSpaceChar)
    else c :: collapseWsF f cs

/-- Collapse every whitespace run to a single space. -/
def collapseWs (l : List Char) : List Char := collapseWsF l.length l

/-- One case-insensitive whole-word substitution pass, the model of
`re.sub(r'\b<word>\b', repl, s, flags=re.IGNORECASE)` for an alphabetic
word: scanning left to right, a match needs the previous character to
be a non-word character (tracked in `prevWord`) and the character after
the matched word to be a non-word character; scanning resumes after the
match (whose last character is a word character).  Fuel = list length. -/
def subWordCIF (w repl : List Char) : Nat → Bool → List Char → List Char
  | _, _, [] => []
  | 0, _, l => l
  | f + 1, prevWord, c :: cs =>
    if !prevWord && (((c :: cs).take w.length).map Char.toLower == w) &&
       !(match (c :: cs).drop w.length with
         | [] => false
         | d :: _ => isWordChar d) then
      repl ++ subWordCIF w repl f true ((c :: cs).drop w.length)
    else c :: subWordCIF w repl f (isWordChar c) cs

/-- The abbreviation table of `_preprocess_query`
(src/query_processor.py lines 520-526), in dict order. -/
def abbreviations : List (List Char × List Char) :=
  [(txt "whats", txt "what is"),
   (txt "whos", txt "who is"),
   (txt "wheres", txt "where is"),
   (txt "hows", txt "how is"),
   (txt "whens", txt "when is")]

/-- Model of `_preprocess_query` (lines 514-531): strip and collapse
whitespace, then apply the five whole-word abbreviation substitutions
in order. -/
def _preprocess_query (query : List Char) : List Char :=
  abbreviations.foldl
    (fun q p => subWordCIF p.1 p.2 q.length false q)
    (collapseWs (stripWs query))

/-- A vector-search hit as the context assembler reads it.  `etype`
models the dict key `type` (reserved word in Lean).  `sim_text` is the
already-rendered text of `f"{similarity_score:.3f}"` (the floating
score itself is external data and no claim concerns its value).
`related_local_names` models `[rel['local_name'] for rel in
entity.get('related_entities', ...)]` and `instance_labels` models
`[inst['label'] for inst in entity.get('instances', ...)]`; an empty
list models an absent (or falsy) key, matching Python truthiness. -/
structure Entity where
  uri : List Char
  local_name : List Char
  etype : List Char
  labels : List (List Char)
  comments : List (List Char)
  sim_text : List Char
  related_local_names : List (List Char)
  instance_labels : List (List Char)
deriving DecidableEq, Repr

/-- Result dict of the GraphSparqlQAChain collaborator: optional
`answer`, `sparql_query` and `error` keys (`none` models an absent
key). -/
structure ChainRes where
  answer : Option (List Char)
  sparql_query : Option (List Char)
  error : Option (List Char)
deriving DecidableEq, Repr

/-- One entry of `direct_sparql_results` (process_query lines 478-483):
a row is a list of (binding, value) pairs. -/
structure DirectRes where
  query_type : List Char
  sparql_query : List Char
  results : List (List (List Char × List Char))
  description : List Char
deriving DecidableEq, Repr

/-- The keyword options of `process_query` (defaults 15, True, True). -/
structure Options where
  top_k : Nat
  use_sparql_chain : Bool
  include_vector_search : Bool
deriving DecidableEq, Repr

/-- The default option values of the source signature. -/
def defaultOptions : Options := ⟨15, true, true⟩

/-- External collaborators of the processor, as oracles.  A `none`
result models the call raising an exception.  `vectorSearch` receives
the cleaned query and `top_k` (the fixed `min_score=0.4` is absorbed
into the oracle); `chainCall` receives the cleaned query;
`chainErrText` is the `str(e)` of a raised chain exception;
`execQuery` is `rdf_manager.query_sparql`; `schemaSummary` is
`rdf_manager.get_schema_summary()`; `enhance` abstracts
`_enhance_entity_with_relations`, whose body is a sequence of
collaborator queries (its failure mode returns the entity unchanged,
so a total function covers it). -/
structure Env where
  hasVectorStore : Bool
  vectorSearch : List Char → Nat → Option (List Entity)
  hasSparqlChain : Bool
  chainCall : List Char → Option ChainRes
  chainErrText : List Char
  execQuery : List Char → Option (List (List (List Char × List Char)))
  schemaSummary : List Char
  enhance : Entity → Entity

/-- Result record of `process_query` (the dict initialised at lines
415-426; `context` is filled last). -/
structure ProcResult where
  original_query : List Char
  cleaned_query : List Char
  query_classification : Classification
  key_concepts : List (List Char)
  vector_search_results : List Entity
  sparql_chain_result : Option ChainRes
  direct_sparql_results : List DirectRes
  enhanced_entities : Option (List Entity)
  processing_method : List (List Char)
  context : List Char
  success : Bool
deriving DecidableEq, Repr

/-- The loop over synthesized queries (lines 473-486): execute each
query independently; a raising query is skipped, and a query whose
result list is empty (falsy) contributes nothing. -/
def runDirectSparql (env : Env) : List QuerySpec → List DirectRes
  | [] => []
  | q :: rest =>
    match env.execQuery q.query with
    | some rows =>
      if rows.isEmpty then runDirectSparql env rest
      else ⟨q.qtype, q.query, rows, q.description⟩ :: runDirectSparql env rest
    | none => runDirectSparql env rest

/-- The intents that trigger direct SPARQL generation (line 465). -/
def intentTargets : List (List Char) :=
  [txt "listing", txt "hierarchical", txt "count", txt "relationship"]

/-- Python truthiness of the stored `error` value: absent or empty. -/
def chainErrFalsy : Option (List Char) → Bool
  | none => true
  | some s => s.isEmpty

/-- Python truthiness of `result.get('sparql_chain_result')`: `None` is
falsy; a stored dict (either the collaborator's result or
`{'error': str(e)}`) is non-empty, hence truthy. -/
def chainResFalsy : Option ChainRes → Bool
  | none => true
  | some _ => false

/-- Decimal text of a natural number (for `f"{i}."`). -/
def natText (n : Nat) : List Char := (Nat.repr n).data

/-- Rendering of one SPARQL result row (line 879):
`", ".join(f"{k}: {v}" for k, v in res.items() if v)`. -/
def renderRow (row : List (List Char × List Char)) : List Char :=
  List.intercalate (txt ", ")
    ((row.filter (fun kv => !kv.2.isEmpty)).map
      (fun kv => kv.1 ++ txt ": " ++ kv.2))

/-- Context lines for one enumerated vector-search entity
(lines 851-871). -/
def entityLines (ie : Nat × Entity) : List (List Char) :=
  let e := ie.2
  [natText (ie.1 + 1) ++ txt ". " ++ e.local_name ++ txt " (" ++ e.etype ++ txt ")",
   txt "   URI: " ++ e.uri]
  ++ (if e.labels.isEmpty then []
      else [txt "   Labels: " ++ List.intercalate (txt ", ") e.labels])
  ++ (if e.comments.isEmpty then []
      else [txt "   Description: " ++ List.intercalate (txt " ") (e.comments.take 2)])
  ++ (if e.related_local_names.isEmpty then []
      else [txt "   Related to: " ++
            List.intercalate (txt ", ") (e.related_local_names.take 3)])
  ++ (if e.instance_labels.isEmpty then []
      else [txt "   Examples: " ++
            List.intercalate (txt ", ") (e.instance_labels.take 3)])
  ++ [txt "   Similarity Score: " ++ e.sim_text, []]

/-- Context lines for one direct-SPARQL result set (lines 876-881). -/
def directLines (d : DirectRes) : List (List Char) :=
  (d.description ++ txt ":") ::
  ((d.results.take 5).enum.map
    (fun ir => txt "  " ++ natText (ir.1 + 1) ++ txt ". " ++ renderRow ir.2))
  ++ [[]]

/-- Model of `_generate_comprehensive_context` (src/query_processor.py
lines 825-904) as the list of `context_parts` it appends; the returned
context is their newline join.  Section order: query metadata; the
chain section when a chain result is present with a falsy error; the
vector-entity section when vector results are non-empty; the
direct-SPARQL section when present; the schema-overview fallback when
BOTH the vector results and the stored chain result are falsy; the
fixed instruction block. -/
def contextParts (r : ProcResult) (schema : List Char) : List (List Char) :=
  ([txt "User Query: " ++ r.original_query,
    txt "Query Intent: " ++ r.query_classification.primary_intent]
   ++ (match r.query_classification.secondary_intent with
       | some s => if s.isEmpty then [] else [txt "Secondary Intent: " ++ s]
       | none => [])
   ++ [txt "Key Concepts: " ++ List.intercalate (txt ", ") (r.key_concepts.take 5), []])
  ++ (match r.sparql_chain_result with
      | some cr =>
        if chainErrFalsy cr.error then
          [txt "=== LANGCHAIN SPARQL ANALYSIS ==="]
          ++ (match cr.answer with
              | some a => if a.isEmpty then [] else [txt "Generated Answer: " ++ a]
              | none => [])
          ++ (match cr.sparql_query with
              | some sq => if sq.isEmpty then [] else [txt "SPARQL Query Used: " ++ sq]
              | none => [])
          ++ [[]]
        else []
      | none => [])
  ++ (if r.vector_search_results.isEmpty then []
      else txt "=== RELEVANT ENTITIES FROM KNOWLEDGE GRAPH ===" ::
           (r.vector_search_results.take 5).enum.flatMap entityLines)
  ++ (if r.direct_sparql_results.isEmpty then []
      else txt "=== ADDITIONAL SPARQL QUERY RESULTS ===" ::
           r.direct_sparql_results.flatMap directLines)
  ++ (if r.vector_search_results.isEmpty && chainResFalsy r.sparql_chain_result then
        [txt "=== ONTOLOGY SCHEMA OVERVIEW ===", schema, []]
      else [])
  ++ [txt "=== INSTRUCTIONS ===",
      txt "Based on the above information from the RDF knowledge graph:",
      txt "1. Provide a comprehensive and accurate answer to the user's query",
      txt "2. Prioritize information from the LangChain SPARQL analysis if available",
      txt "3. Use the relevant entities and SPARQL results to provide detailed explanations",
      txt "4. Explain relationships and concepts clearly with examples where available",
      txt "5. If information is insufficient, acknowledge this and suggest related topics",
      txt "6. Focus on the most relevant information based on the query intent"]

/-- The assembled context text: `"\n".join(context_parts)`. -/
def _generate_comprehensive_context (r : ProcResult) (schema : List Char) : List Char :=
  List.intercalate (txt "\n") (contextParts r schema)

/-- Model of `process_query` (src/query_processor.py lines 385-512):
preprocess, classify and extract; run vector search when enabled and
available, a raising call leaving the results empty and the method
unrecorded; run the chain when enabled and available, a raising call
storing `{'error': str(e)}` without recording the method; for the four
structured intents run the synthesized queries and record
`direct_sparql` unconditionally; enhance the top five vector hits; and
assemble the context.  The outer `try/except` cannot fire because every
collaborator failure is already modelled at its call site, so
`success` is `True`. -/
def process_query (env : Env) (user_query : List Char) (opts : Options) : ProcResult :=
  let cleaned_query := _preprocess_query user_query
  let query_classification := _classify_query_enhanced cleaned_query
  let key_concepts := _extract_key_concepts_enhanced cleaned_query
  let vp :=
    if opts.include_vector_search && env.hasVectorStore then
      match env.vectorSearch cleaned_query opts.top_k with
      | some rs => (rs, [txt "vector_search"])
      | none => ([], [])
    else ([], [])
  let cp :=
    if opts.use_sparql_chain && env.hasSparqlChain then
      match env.chainCall cleaned_query with
      | some cr => (some cr, [txt "sparql_chain"])
      | none => (some (⟨none, none, some env.chainErrText⟩ : ChainRes), [])
    else (none, [])
  let dp :=
    if intentTargets.contains query_classification.primary_intent then
      (runDirectSparql env
        (_generate_targeted_sparql_queries cleaned_query query_classification key_concepts),
       [txt "direct_sparql"])
    else ([], [])
  let enhanced_entities :=
    if vp.1.isEmpty then none else some ((vp.1.take 5).map env.enhance)
  let pre : ProcResult :=
    ⟨user_query, cleaned_query, query_classification, key_concepts,
     vp.1, cp.1, dp.1, enhanced_entities, vp.2 ++ cp.2 ++ dp.2, [], true⟩
  ⟨user_query, cleaned_query, query_classification, key_concepts,
   vp.1, cp.1, dp.1, enhanced_entities, vp.2 ++ cp.2 ++ dp.2,
   _generate_comprehensive_context pre env.schemaSummary, true⟩

/-- Falsified claim-C9 aggregated result: no vector hits, a chain
result that is an error dict (so no chain answer exists), and one
non-empty direct-SPARQL result set. -/
def c9Result : ProcResult :=
  ⟨txt "q", txt "q", ⟨txt "general", none, 0, []⟩, [], [],
   some ⟨none, none, some (txt "boom")⟩,
   [⟨txt "list_classes", txt "SELECT", [[(txt "class", txt "X")]], txt "desc"⟩],
   none, [], [], true⟩

/-- C9 witness result: no vector hits, no chain result, one structured
result set. -/
def c9WitnessResult : ProcResult :=
  ⟨txt "q", txt "q", ⟨txt "general", none, 0, []⟩, [], [], none,
   [⟨txt "list_classes", txt "SELECT", [[(txt "class", txt "X")]], txt "desc"⟩],
   none, [], [], true⟩

/-- C10 witness environment: every collaborator raises. -/
def c10Env : Env :=
  ⟨false, fun _ _ => none, false, fun _ => none, txt "",
   fun _ => none, txt "", id⟩

/-- C4 witness environment: the vector search raises, the chain
answers, and every structured query returns one row. -/
def c4Env : Env :=
  ⟨true, fun _ _ => none, true,
   fun _ => some ⟨some (txt "yes"), some (txt "SELECT 1"), none⟩, txt "",
   fun _ => some [[(txt "class", txt "X")]], txt "schema", id⟩

/-- Membership in the output of `replaceChar` comes from the replacement
string or from a surviving (non-target) character of the input. -/
theorem mem_replaceChar {t : Char} {r l : List Char} {c : Char}
    (h : c ∈ replaceChar t r l) : c ∈ r ∨ (c ∈ l ∧ c ≠ t) := by
  induction l with
  | nil => simp [replaceChar] at h
  | cons a as ih =>
    simp only [replaceChar, List.mem_append] at h
    rcases h with h | h
    · by_cases hat : a = t
      · simp [hat] at h
        exact Or.inl h
      · simp [hat] at h
        subst h
        exact Or.inr ⟨List.mem_cons_self _ _, hat⟩
    · rcases ih h with h' | ⟨hmem, hne⟩
      · exact Or.inl h'
      · exact Or.inr ⟨List.mem_cons_of_mem _ hmem, hne⟩

/-- `replaceChar` is the identity when the target never occurs. -/
theorem replaceChar_eq_self {t : Char} {r l : List Char}
    (h : ∀ c ∈ l, c ≠ t) : replaceChar t r l = l := by
  induction l with
  | nil => rfl
  | cons a as ih =>
    have ha : a ≠ t := h a (List.mem_cons_self _ _)
    simp only [replaceChar, if_neg ha, List.singleton_append]
    rw [ih (fun c hc => h c (List.mem_cons_of_mem _ hc))]

/-- Every character of the escaped output is in the kept class
`[\w\s\-_.]` (this is the final `re.sub` of the source). -/
theorem escape_chars_safe {s : List Char} {c : Char}
    (h : c ∈ _escape_sparql_string s) : isSafeChar c = true := by
  unfold _escape_sparql_string at h
  by_cases hs : s = []
  · simp [hs] at h
  · simp only [if_neg hs] at h
    exact (List.mem_filter.mp h).2

/-- After the six replacement passes no newline, carriage return or tab
remains: each pass removes its target and no later replacement string
reintroduces an earlier target. -/
theorem escape_no_ctl {s : List Char} {c : Char}
    (h : c ∈ _escape_sparql_string s) :
    c ≠ nlChar ∧ c ≠ crChar ∧ c ≠ tbChar := by
  unfold _escape_sparql_string at h
  by_cases hs : s = []
  · simp [hs] at h
  · simp only [if_neg hs] at h
    have h6 := (List.mem_filter.mp h).1
    -- walk the membership back through the replacement passes
    rcases mem_replaceChar h6 with h6r | ⟨h5, hct⟩
    · -- c came from the replacement of tab, namely [bsChar, 't']
      refine ⟨?_, ?_, ?_⟩ <;> (intro he; subst he; revert h6r; decide)
    · rcases mem_replaceChar h5 with h5r | ⟨h4, hcr⟩
      · refine ⟨?_, ?_, ?_⟩
        · intro he; subst he; revert h5r; decide
        · intro he; subst he; revert h5r; decide
        · intro he; exact hct he
      · rcases mem_replaceChar h4 with h4r | ⟨_, hnl⟩
        · refine ⟨?_, ?_, ?_⟩
          · intro he; subst he; revert h4r; decide
          · intro he; exact hcr he
          · intro he; exact hct he
        · exact ⟨hnl, hcr, hct⟩

/-- No character of the escaped output is a backslash, a double quote or
a single quote: those characters are outside the kept class. -/
theorem escape_no_specials {s : List Char} {c : Char}
    (h : c ∈ _escape_sparql_string s) :
    c ≠ bsChar ∧ c ≠ dqChar ∧ c ≠ sqChar := by
  have hsafe := escape_chars_safe h
  refine ⟨?_, ?_, ?_⟩ <;> (intro he; subst he; revert hsafe; decide)

/-- The escape function is idempotent: its output contains none of the
six replaced characters (backslash, quotes, newline, carriage return,
tab), so every replacement pass is the identity on it, and all its
characters are in the kept class, so the final strip is the identity. -/
theorem escape_idempotent (s : List Char) :
    _escape_sparql_string (_escape_sparql_string s) = _escape_sparql_string s := by
  set y := _escape_sparql_string s with hy
  by_cases hnil : y = []
  · rw [hnil]; rfl
  · have hno : ∀ t : Char,
        (t = bsChar ∨ t = dqChar ∨ t = sqChar ∨ t = nlChar ∨ t = crChar ∨ t = tbChar) →
        ∀ c ∈ y, c ≠ t := by
      intro t ht c hc
      have h1 := escape_no_specials (hy ▸ hc)
      have h2 := escape_no_ctl (hy ▸ hc)
      rcases ht with h | h | h | h | h | h <;> subst h
      · exact h1.1
      · exact h1.2.1
      · exact h1.2.2
      · exact h2.1
      · exact h2.2.1
      · exact h2.2.2
    have e1 : replaceChar bsChar [bsChar, bsChar] y = y :=
      replaceChar_eq_self (hno bsChar (by tauto))
    have e2 : replaceChar dqChar [bsChar, dqChar] y = y :=
      replaceChar_eq_self (hno dqChar (by tauto))
    have e3 : replaceChar sqChar [bsChar, sqChar] y = y :=
      replaceChar_eq_self (hno sqChar (by tauto))
    have e4 : replaceChar nlChar [bsChar, 'n'] y = y :=
      replaceChar_eq_self (hno nlChar (by tauto))
    have e5 : replaceChar crChar [bsChar, 'r'] y = y :=
      replaceChar_eq_self (hno crChar (by tauto))
    have e6 : replaceChar tbChar [bsChar, 't'] y = y :=
      replaceChar_eq_self (hno tbChar (by tauto))
    have ef : y.filter isSafeChar = y :=
      List.filter_eq_self.mpr (fun c hc => escape_chars_safe (hy ▸ hc))
    unfold _escape_sparql_string
    rw [if_neg hnil]
    simp only [e1, e2, e3, e4, e5, e6, ef]

/-- C2: for any input string, one application of `_escape_sparql_string`
yields an output with no double quote, no single quote and no backslash
at all (hence none unescaped), and every output character is drawn from
the class `[\w\s\-_.]` (so in particular from the set named by the claim,
which additionally allows the escape sequences the function introduces:
the final character strip removes even those). -/
theorem claim_C2_escape_output_safe : ∀ s : List Char,
    ((_escape_sparql_string s).all fun c =>
      isSafeChar c && !(c == dqChar) && !(c == sqChar) && !(c == bsChar)) = true := by
  intro s
  rw [List.all_eq_true]
  intro c hc
  have h1 := escape_chars_safe hc
  have h2 := escape_no_specials hc
  have hd : (c == dqChar) = false := beq_eq_false_iff_ne.mpr h2.2.1
  have hq : (c == sqChar) = false := beq_eq_false_iff_ne.mpr h2.2.2
  have hb : (c == bsChar) = false := beq_eq_false_iff_ne.mpr h2.1
  simp [h1, hd, hq, hb]

/-- C3 counterexample: the claim asserts that some input is changed by a
second application of the escape function; in fact no input is, because
the final strip `re.sub(r'[^\w\s\-_.]', '', text)` removes every
backslash the replacement passes introduce, so there is nothing left to
double-escape. -/
theorem claim_C3_counterexample :
    ¬ ∃ s : List Char,
      _escape_sparql_string (_escape_sparql_string s) ≠ _escape_sparql_string s :=
  fun ⟨s, h⟩ => h (escape_idempotent s)

/-- C3 amended: `_escape_sparql_string` is idempotent — applying it
twice always gives the same result as applying it once. -/
theorem claim_C3_escape_idempotent : ∀ s : List Char,
    _escape_sparql_string (_escape_sparql_string s) = _escape_sparql_string s :=
  fun s => escape_idempotent s

/-- Output of `insertDesc` is a permutation of consing the element. -/
theorem insertDesc_perm {α : Type} (x : α × Nat) (l : List (α × Nat)) :
    List.Perm (insertDesc x l) (x :: l) := by
  induction l with
  | nil => exact List.Perm.refl _
  | cons y ys ih =>
    by_cases h : x.2 < y.2
    · simp only [insertDesc, if_pos h]
      exact (ih.cons y).trans (List.Perm.swap x y ys)
    · simp only [insertDesc, if_neg h]
      exact List.Perm.refl _

/-- Output of `sortDesc` is a permutation of the input. -/
theorem sortDesc_perm {α : Type} (l : List (α × Nat)) :
    List.Perm (sortDesc l) l := by
  induction l with
  | nil => exact List.Perm.refl _
  | cons x xs ih => exact (insertDesc_perm x (sortDesc xs)).trans (ih.cons x)

/-- `insertDesc` preserves descending order. -/
theorem insertDesc_sorted {α : Type} {x : α × Nat} {l : List (α × Nat)}
    (h : SortedDesc l) : SortedDesc (insertDesc x l) := by
  induction l with
  | nil => exact List.pairwise_singleton _ _
  | cons y ys ih =>
    rcases List.pairwise_cons.mp h with ⟨hy, hys⟩
    by_cases hxy : x.2 < y.2
    · simp only [insertDesc, if_pos hxy]
      refine List.pairwise_cons.mpr ⟨?_, ih hys⟩
      intro z hz
      rcases List.mem_cons.mp ((insertDesc_perm x ys).mem_iff.mp hz) with hz | hz
      · subst hz; exact Nat.le_of_lt hxy
      · exact hy z hz
    · simp only [insertDesc, if_neg hxy]
      refine List.pairwise_cons.mpr ⟨?_, h⟩
      intro z hz
      rcases List.mem_cons.mp hz with hz | hz
      · subst hz; exact Nat.le_of_not_lt hxy
      · exact Nat.le_trans (hy z hz) (Nat.le_of_not_lt hxy)

/-- `sortDesc` sorts descending by score. -/
theorem sortDesc_sorted {α : Type} (l : List (α × Nat)) :
    SortedDesc (sortDesc l) := by
  induction l with
  | nil => exact List.Pairwise.nil
  | cons x xs ih => exact insertDesc_sorted ih

/-- Score-map entries never exceed the confidence, and the primary
intent is either an entry achieving the confidence or `general` when
every score is zero. -/
theorem classifyFromScores_ok (l : List (List Char × Nat)) :
    ((classifyFromScores l).all_scores.all
      (fun p => p.2 ≤ (classifyFromScores l).confidence)) = true ∧
    (if (classifyFromScores l).confidence = 0
     then (classifyFromScores l).primary_intent = txt "general"
     else ((classifyFromScores l).primary_intent,
           (classifyFromScores l).confidence) ∈
             (classifyFromScores l).all_scores) := by
  unfold classifyFromScores
  cases hs : sortDesc l with
  | nil => simp
  | cons top rest =>
    have hsorted : SortedDesc (top :: rest) := hs ▸ sortDesc_sorted l
    rcases List.pairwise_cons.mp hsorted with ⟨htop, _⟩
    constructor
    · rw [List.all_eq_true]
      intro p hp
      dsimp only at hp ⊢
      rcases List.mem_cons.mp hp with hp | hp
      · subst hp; exact decide_eq_true (Nat.le_refl _)
      · exact decide_eq_true (htop p hp)
    · dsimp only
      by_cases h0 : top.2 = 0
      · have hno : ¬ 0 < top.2 := by omega
        simp [h0, hno]
      · have hpos : 0 < top.2 := Nat.pos_of_ne_zero h0
        simp only [if_neg h0, if_pos hpos]
        exact List.mem_cons_self _ _

/-- C8: for every query, every entry of the returned score map is at
most the returned confidence (the primary intent's score); when the
confidence is positive, the primary intent together with that score is
an entry of the map, and when it is zero (all intents score zero) the
primary intent is `general`. -/
theorem claim_C8_primary_intent_max : ∀ q : List Char,
    ((_classify_query_enhanced q).all_scores.all
      (fun p => p.2 ≤ (_classify_query_enhanced q).confidence)) = true ∧
    (if (_classify_query_enhanced q).confidence = 0
     then (_classify_query_enhanced q).primary_intent = txt "general"
     else ((_classify_query_enhanced q).primary_intent,
           (_classify_query_enhanced q).confidence) ∈
             (_classify_query_enhanced q).all_scores) :=
  fun q => classifyFromScores_ok (intentScores (stripWs (toLowerList q)))

/-- Length bound for `dropWhile`, used for termination. -/
theorem length_dropWhile_le' (p : Char → Bool) (l : List Char) :
    (l.dropWhile p).length ≤ l.length := by
  induction l with
  | nil => simp
  | cons c cs ih =>
    by_cases h : p c
    · rw [List.dropWhile_cons_of_pos h]; exact Nat.le_trans ih (Nat.le_succ _)
    · rw [List.dropWhile_cons_of_neg h]

/-- C1 (failing input): with classification `listing` and the
user-derived concept `a"b`, both rendered query texts of the effective
synthesizer contain the raw interpolation `LCASE("a"b")` — the
concept's double quote terminates the SPARQL literal — while the
escaped-once literal would have been `ab`, which appears in neither
query.  So the concept literal was not passed through
`_escape_sparql_string` before interpolation. -/
theorem claim_C1_unescaped_concept_literal :
    ((_generate_targeted_sparql_queries (txt "test query")
        ⟨txt "listing", none, 0, []⟩ [txt "a\"b"]).map
      (fun s => substrB (txt "LCASE(\"a\"b\")") s.query)) = [true, true] ∧
    _escape_sparql_string (txt "a\"b") = txt "ab" ∧
    ((_generate_targeted_sparql_queries (txt "test query")
        ⟨txt "listing", none, 0, []⟩ [txt "a\"b"]).map
      (fun s => substrB (txt "LCASE(\"ab\")") s.query)) = [false, false] := by
  decide

/-- C5 counterexample: for the input `list all animals` the effective
synthesizer yields 4 structured query specs, not the 2 the claim
states, because `all` is not in the stop-word set and therefore is a
second extracted concept (2 specs are emitted per concept for the
`listing` intent). -/
theorem claim_C5_counterexample :
    (_generate_targeted_sparql_queries (_preprocess_query (txt "list all animals"))
      (_classify_query_enhanced (_preprocess_query (txt "list all animals")))
      (_extract_key_concepts_enhanced (_preprocess_query (txt "list all animals")))).length
        = 4 ∧
    ¬ (_generate_targeted_sparql_queries (_preprocess_query (txt "list all animals"))
      (_classify_query_enhanced (_preprocess_query (txt "list all animals")))
      (_extract_key_concepts_enhanced (_preprocess_query (txt "list all animals")))).length
        = 2 := by
  decide

/-- C5 amended: `list all animals` classifies as `listing`; the
extracted concepts are exactly the two terms `animals` and `all` (the
latter is not a stop word); the synthesizer yields exactly 4 specs —
one `list_classes` and one `list_properties` per concept — and among
them a `list_classes` spec and a `list_properties` spec whose query
text references the literal `animals`, which coincides with its
escaped form `_escape_sparql_string "animals"`. -/
theorem claim_C5_listing_example :
    (_classify_query_enhanced (_preprocess_query (txt "list all animals"))).primary_intent
      = txt "listing" ∧
    txt "animals" ∈ _extract_key_concepts_enhanced (_preprocess_query (txt "list all animals")) ∧
    txt "all" ∈ _extract_key_concepts_enhanced (_preprocess_query (txt "list all animals")) ∧
    (_extract_key_concepts_enhanced (_preprocess_query (txt "list all animals"))).length = 2 ∧
    (_generate_targeted_sparql_queries (_preprocess_query (txt "list all animals"))
      (_classify_query_enhanced (_preprocess_query (txt "list all animals")))
      (_extract_key_concepts_enhanced (_preprocess_query (txt "list all animals")))).length
        = 4 ∧
    ((_generate_targeted_sparql_queries (_preprocess_query (txt "list all animals"))
      (_classify_query_enhanced (_preprocess_query (txt "list all animals")))
      (_extract_key_concepts_enhanced (_preprocess_query (txt "list all animals")))).any
      (fun s => s.qtype == txt "list_classes" &&
        substrB (txt "LCASE(\"" ++ _escape_sparql_string (txt "animals") ++ txt "\")")
          s.query)) = true ∧
    ((_generate_targeted_sparql_queries (_preprocess_query (txt "list all animals"))
      (_classify_query_enhanced (_preprocess_query (txt "list all animals")))
      (_extract_key_concepts_enhanced (_preprocess_query (txt "list all animals")))).any
      (fun s => s.qtype == txt "list_properties" &&
        substrB (txt "LCASE(\"" ++ _escape_sparql_string (txt "animals") ++ txt "\")")
          s.query)) = true := by
  decide

/-- C6 counterexample: in the query `list "Animals" animals` the quoted
phrase `Animals` (extracted from the original, case-preserving text)
and the unigram `animals` (from the lower-cased text) are duplicates up
to letter case, yet both appear in the returned concept list — the
`list(set(...))` deduplication is case-sensitive. -/
theorem claim_C6_counterexample :
    txt "Animals" ∈ _extract_key_concepts_enhanced (txt "list \"Animals\" animals") ∧
    txt "animals" ∈ _extract_key_concepts_enhanced (txt "list \"Animals\" animals") := by
  decide

/-- C7 counterexample: `what` consists solely of stop-words (its only
word token is the stop word `what`) and concept extraction indeed
returns the empty list, but intent classification returns
`definition` with confidence 0.5 (here 1 half-point), not `general`
with confidence 0, because `what` is also a `definition` keyword. -/
theorem claim_C7_counterexample :
    ((wordsOf (toLowerList (txt "what"))).all (fun w => stop_words.contains w)) = true ∧
    _extract_key_concepts_enhanced (txt "what") = [] ∧
    (_classify_query_enhanced (txt "what")).primary_intent = txt "definition" ∧
    (_classify_query_enhanced (txt "what")).confidence = 1 := by
  decide

/-- The seen-accumulator deduplication yields distinct elements none of
which is in the accumulator. -/
theorem dedupAux_nodup_notmem {α : Type} [DecidableEq α] :
    ∀ (l seen : List α),
      (dedupAux l seen).Nodup ∧ ∀ x ∈ dedupAux l seen, x ∉ seen := by
  intro l
  induction l with
  | nil => intro seen; exact ⟨List.nodup_nil, by simp [dedupAux]⟩
  | cons a as ih =>
    intro seen
    by_cases h : a ∈ seen
    · simpa [dedupAux, h] using ih seen
    · simp only [dedupAux, if_neg h]
      rcases ih (a :: seen) with ⟨hnd, hmem⟩
      refine ⟨List.nodup_cons.mpr ⟨?_, hnd⟩, ?_⟩
      · intro hmem2
        exact (hmem a hmem2) (List.mem_cons_self a seen)
      · intro x hx
        rcases List.mem_cons.mp hx with hx | hx
        · subst hx; exact h
        · intro hxs
          exact (hmem x hx) (List.mem_cons_of_mem a hxs)

/-- `dedupFirst` produces a duplicate-free list. -/
theorem dedupFirst_nodup {α : Type} [DecidableEq α] (l : List α) :
    (dedupFirst l).Nodup :=
  (dedupAux_nodup_notmem l []).1

/-- Projecting the first components back out of the scoring map is the
identity. -/
theorem map_fst_map_pair {α : Type} (A : List α) (f : α → Nat) :
    ((A.map (fun c => (c, f c))).map Prod.fst) = A := by
  induction A with
  | nil => rfl
  | cons a as ih => simp only [List.map_cons, ih]

/-- Sorting scored pairs of distinct elements and projecting keeps the
elements distinct. -/
theorem sortDesc_map_fst_nodup {α : Type} [DecidableEq α]
    (A : List α) (f : α → Nat) (h : A.Nodup) :
    ((sortDesc (A.map (fun c => (c, f c)))).map Prod.fst).Nodup := by
  have h2 := (sortDesc_perm (A.map (fun c => (c, f c)))).map Prod.fst
  rw [map_fst_map_pair] at h2
  exact h2.symm.nodup h

/-- C6 amended: for every query the scored concept list is sorted
descending by score, and the returned concept list has no duplicate
entries under exact (case-sensitive) equality; duplicates up to letter
case do NOT collapse (see the counterexample), and the tie order is the
Python set iteration order, which is implementation-defined. -/
theorem claim_C6_sorted_and_exact_dedup : ∀ q : List Char,
    SortedDesc (extractScored q) ∧ (_extract_key_concepts_enhanced q).Nodup := by
  intro q
  constructor
  · exact sortDesc_sorted _
  · exact sortDesc_map_fst_nodup _ _ (dedupFirst_nodup _)

/-- A quote-free string contains no quoted phrase. -/
theorem findQuotedF_no_quote {q : Char} :
    ∀ (f : Nat) (l : List Char), q ∉ l → findQuotedF q f l = [] := by
  intro f
  induction f with
  | zero => intro l _; cases l <;> rfl
  | succ f ih =>
    intro l hl
    cases l with
    | nil => rfl
    | cons c cs =>
      have hc : ¬ c = q := fun he => hl (he ▸ List.mem_cons_self c cs)
      simp only [findQuotedF, if_neg hc]
      exact ih cs (fun hq => hl (List.mem_cons_of_mem c hq))

/-- C7 amended: for every query consisting solely of stop-words (every
word token of the lower-cased query is a stop word, and the query
contains no quote characters), concept extraction returns the empty
list.  The classification half of the original claim is false: see the
counterexample (`what` classifies as `definition` with confidence
0.5). -/
theorem claim_C7_stopword_extraction (q : List Char)
    (hw : ((wordsOf (toLowerList q)).all (fun w => stop_words.contains w)) = true)
    (hd : dqChar ∉ q) (hs : sqChar ∉ q) :
    _extract_key_concepts_enhanced q = [] := by
  have hconcepts : (wordsOf (toLowerList q)).filter
      (fun w => !(stop_words.contains w) && 2 < w.length) = [] := by
    apply List.filter_eq_nil_iff.mpr
    intro a ha
    have h := List.all_eq_true.mp hw a ha
    have hmem : a ∈ stop_words := by simpa using h
    simp [hmem]
  have hq1 : findQuoted dqChar q = [] := findQuotedF_no_quote _ _ hd
  have hq2 : findQuoted sqChar q = [] := findQuotedF_no_quote _ _ hs
  unfold _extract_key_concepts_enhanced extractScored
  simp only [hconcepts, hq1, hq2, List.append_nil, List.nil_append]
  rfl

/-- C7 witness: the concrete stop-word query `what is the`. -/
theorem claim_C7_witness :
    _extract_key_concepts_enhanced (txt "what is the") = [] :=
  claim_C7_stopword_extraction (txt "what is the") (by decide) (by decide) (by decide)

/-- Joining a list whose head is non-empty gives a non-empty string. -/
theorem intercalate_cons_ne_nil (sep a : List Char) (l : List (List Char))
    (ha : a ≠ []) : List.intercalate sep (a :: l) ≠ [] := by
  cases l with
  | nil => simpa [List.intercalate] using ha
  | cons b bs =>
    simp only [List.intercalate, List.intersperse, List.flatten]
    intro h
    rcases List.append_eq_nil.mp h with ⟨h1, _⟩
    exact ha h1

/-- The context parts always start with the user-query line. -/
theorem contextParts_head (r : ProcResult) (schema : List Char) :
    ∃ tail, contextParts r schema = (txt "User Query: " ++ r.original_query) :: tail :=
  ⟨_, rfl⟩

/-- C9 counterexample: in `c9Result` neither semantic hits nor a chain
answer exist (the stored chain result is a bare error dict), yet the
assembled context contains NO schema-overview fallback — the code
checks only the truthiness of the stored chain result, and an error
dict is truthy — while the structured-results section IS present, so
the fallback neither appears nor replaces sections 2-4. -/
theorem claim_C9_counterexample :
    c9Result.vector_search_results = [] ∧
    c9Result.sparql_chain_result = some ⟨none, none, some (txt "boom")⟩ ∧
    ((contextParts c9Result (txt "Classes: 3")).contains
      (txt "=== ONTOLOGY SCHEMA OVERVIEW ===")) = false ∧
    ((contextParts c9Result (txt "Classes: 3")).contains
      (txt "=== ADDITIONAL SPARQL QUERY RESULTS ===")) = true := by
  decide

/-- C9 amended: the fallback fires exactly when the vector results are
empty AND the stored chain result is absent entirely (`None`); in that
case the schema-overview section is in the context, the
structured-results section still also appears whenever structured
results exist (it is not replaced), and the context is never the empty
string (the metadata head line is always present). -/
theorem claim_C9_schema_fallback (r : ProcResult) (schema : List Char)
    (hv : r.vector_search_results = [])
    (hc : r.sparql_chain_result = none) :
    txt "=== ONTOLOGY SCHEMA OVERVIEW ===" ∈ contextParts r schema ∧
    (r.direct_sparql_results ≠ [] →
      txt "=== ADDITIONAL SPARQL QUERY RESULTS ===" ∈ contextParts r schema) ∧
    _generate_comprehensive_context r schema ≠ [] := by
  refine ⟨?_, ?_, ?_⟩
  · simp [contextParts, hv, hc, chainResFalsy]
  · intro hd
    have hde : r.direct_sparql_results.isEmpty = false := by
      cases hdr : r.direct_sparql_results with
      | nil => exact absurd hdr hd
      | cons x xs => rfl
    simp [contextParts, hv, hc, hde]
  · rcases contextParts_head r schema with ⟨tail, htail⟩
    unfold _generate_comprehensive_context
    rw [htail]
    apply intercalate_cons_ne_nil
    simp [txt]

/-- C9 witness: the amended theorem applied to a concrete result. -/
theorem claim_C9_witness :
    txt "=== ONTOLOGY SCHEMA OVERVIEW ===" ∈ contextParts c9WitnessResult (txt "Classes: 3") ∧
    txt "=== ADDITIONAL SPARQL QUERY RESULTS ===" ∈ contextParts c9WitnessResult (txt "Classes: 3") ∧
    _generate_comprehensive_context c9WitnessResult (txt "Classes: 3") ≠ [] := by
  have h := claim_C9_schema_fallback c9WitnessResult (txt "Classes: 3") rfl rfl
  exact ⟨h.1, h.2.1 (by decide), h.2.2⟩

/-- C10: whenever the classified primary intent of the cleaned query is
one of listing/hierarchical/count/relationship, `direct_sparql` is
recorded in the processing-methods list — regardless of the outcome of
every individual query execution (the append is outside the per-query
loop at line 488). -/
theorem claim_C10_direct_sparql_always_recorded
    (env : Env) (opts : Options) (q : List Char)
    (h : intentTargets.contains
      (_classify_query_enhanced (_preprocess_query q)).primary_intent = true) :
    txt "direct_sparql" ∈ (process_query env q opts).processing_method := by
  have h' : (_classify_query_enhanced (_preprocess_query q)).primary_intent ∈
      intentTargets := by simpa using h
  simp [process_query, h']

/-- C10 witness: with an all-failing environment the `listing` query
still records `direct_sparql` while producing zero structured results,
so membership of `direct_sparql` does not imply any query succeeded. -/
theorem claim_C10_witness :
    txt "direct_sparql" ∈
      (process_query c10Env (txt "list all animals") defaultOptions).processing_method ∧
    (process_query c10Env (txt "list all animals") defaultOptions).direct_sparql_results
      = [] :=
  ⟨claim_C10_direct_sparql_always_recorded c10Env defaultOptions (txt "list all animals")
     (by decide),
   by decide⟩

/-- C4: when vector search is requested, the store is available and the
search call raises, `process_query` still returns: empty vector
results; a processing-method list without `vector_search`; success;
the chain collaborator's result (with `sparql_chain` recorded) whenever
the chain is enabled, available and returns; and the executed
structured-query results (with `direct_sparql` recorded) whenever the
primary intent is a structured intent. -/
theorem claim_C4_vector_failure_isolated
    (env : Env) (opts : Options) (q : List Char)
    (hinc : opts.include_vector_search = true)
    (hstore : env.hasVectorStore = true)
    (hfail : env.vectorSearch (_preprocess_query q) opts.top_k = none) :
    (process_query env q opts).vector_search_results = [] ∧
    txt "vector_search" ∉ (process_query env q opts).processing_method ∧
    (process_query env q opts).success = true ∧
    (∀ cr : ChainRes, opts.use_sparql_chain = true → env.hasSparqlChain = true →
      env.chainCall (_preprocess_query q) = some cr →
        (process_query env q opts).sparql_chain_result = some cr ∧
        txt "sparql_chain" ∈ (process_query env q opts).processing_method) ∧
    (intentTargets.contains
        (_classify_query_enhanced (_preprocess_query q)).primary_intent = true →
      (process_query env q opts).direct_sparql_results =
        runDirectSparql env
          (_generate_targeted_sparql_queries (_preprocess_query q)
            (_classify_query_enhanced (_preprocess_query q))
            (_extract_key_concepts_enhanced (_preprocess_query q))) ∧
      txt "direct_sparql" ∈ (process_query env q opts).processing_method) := by
  have hne1 : txt "vector_search" ≠ txt "sparql_chain" := by decide
  have hne2 : txt "vector_search" ≠ txt "direct_sparql" := by decide
  refine ⟨?_, ?_, ?_, ?_, ?_⟩
  · simp [process_query, hinc, hstore, hfail]
  · intro hmem
    simp [process_query, hinc, hstore, hfail] at hmem
    rcases hmem with hmem | hmem
    · split at hmem
      · split at hmem <;> simp_all
      · simp at hmem
    · split at hmem
      · simp at hmem
        exact hne2 hmem
      · simp at hmem
  · simp [process_query]
  · intro cr huse hchain hcall
    constructor
    · simp [process_query, huse, hchain, hcall]
    · simp [process_query, huse, hchain, hcall]
  · intro hint
    have h' : (_classify_query_enhanced (_preprocess_query q)).primary_intent ∈
        intentTargets := by simpa using hint
    constructor
    · simp [process_query, h']
    · simp [process_query, h']

/-- C4 witness: the theorem applied to `c4Env` and `list all animals`,
with every hypothesis discharged concretely. -/
theorem claim_C4_witness :
    (process_query c4Env (txt "list all animals") defaultOptions).vector_search_results
      = [] ∧
    txt "vector_search" ∉
      (process_query c4Env (txt "list all animals") defaultOptions).processing_method ∧
    (process_query c4Env (txt "list all animals") defaultOptions).sparql_chain_result
      = some ⟨some (txt "yes"), some (txt "SELECT 1"), none⟩ ∧
    txt "sparql_chain" ∈
      (process_query c4Env (txt "list all animals") defaultOptions).processing_method ∧
    txt "direct_sparql" ∈
      (process_query c4Env (txt "list all animals") defaultOptions).processing_method := by
  have h := claim_C4_vector_failure_isolated c4Env defaultOptions
    (txt "list all animals") rfl rfl rfl
  have hchain := h.2.2.2.1 ⟨some (txt "yes"), some (txt "SELECT 1"), none⟩ rfl rfl rfl
  have hdirect := h.2.2.2.2 (by decide)
  exact ⟨h.1, h.2.1, hchain.1, hchain.2, hdirect.2⟩

/-- C2 witness: the theorem at the concrete input `a'\b` (single quote
and backslash). -/
theorem claim_C2_witness :
    ((_escape_sparql_string (txt "a" ++ [sqChar, bsChar] ++ txt "b")).all fun c =>
      isSafeChar c && !(c == dqChar) && !(c == sqChar) && !(c == bsChar)) = true :=
  claim_C2_escape_output_safe (txt "a" ++ [sqChar, bsChar] ++ txt "b")

/-- C3 witness: idempotence at the concrete input `a\b`. -/
theorem claim_C3_witness :
    _escape_sparql_string (_escape_sparql_string (txt "a" ++ [bsChar] ++ txt "b")) =
      _escape_sparql_string (txt "a" ++ [bsChar] ++ txt "b") :=
  claim_C3_escape_idempotent (txt "a" ++ [bsChar] ++ txt "b")

/-- C6 witness: sortedness and exact-duplicate freedom at the concrete
counterexample query. -/
theorem claim_C6_witness :
    SortedDesc (extractScored (txt "list \"Animals\" animals")) ∧
    (_extract_key_concepts_enhanced (txt "list \"Animals\" animals")).Nodup :=
  claim_C6_sorted_and_exact_dedup (txt "list \"Animals\" animals")

/-- C8 witness: the score-map property at the concrete query
`list all animals`. -/
theorem claim_C8_witness :
    ((_classify_query_enhanced (txt "list all animals")).all_scores.all
      (fun p => p.2 ≤ (_classify_query_enhanced (txt "list all animals")).confidence)) = true ∧
    (if (_classify_query_enhanced (txt "list all animals")).confidence = 0
     then (_classify_query_enhanced (txt "list all animals")).primary_intent = txt "general"
     else ((_classify_query_enhanced (txt "list all animals")).primary_intent,
           (_classify_query_enhanced (txt "list all animals")).confidence) ∈
             (_classify_query_enhanced (txt "list all animals")).all_scores) :=
  claim_C8_primary_intent_max (txt "list all animals")

end RdfQP
